import Mathlib

/-!
# Verification of the `file-selector` Editor.js block tool

Shallow embedding of `src/index.js` (class `FileSelectorTool`).  The plugin
keeps two pieces of state: `_displayData` (render-only projection, reset to
`{file: {}, title: ''}` in the constructor) and `_data` (the block data handed
to the constructor, exposed through the `data` getter/setter and `save()`).
DOM nodes are modelled structurally: the wrapper element carries an ordered
set of CSS classes, a list of children and an ordered set of event listeners
(DOM `classList.add` / `addEventListener` have set semantics, which the model
mirrors).  JavaScript `undefined` is modelled with `Option`; JS truthiness of
the relevant string/number/object fields is made explicit at each use site.
Methods that can throw a `TypeError` by dereferencing a `null` node return
`Option ToolState`, with `none` standing for the crash.
-/

namespace FileSelector

/-- JS string values that may be `undefined` are `Option String`;
`none` is `undefined`, `some ""` is the empty string. -/
abbrev JSStr := Option String

/-- The `file` object inside `_displayData`: keys `extension`, `name`, `size`.
The constructor's `{}` literal is the all-`none` record (a key that is absent
and a key holding `undefined` behave identically under
`Object.values(...).some(item => item !== undefined)`). -/
structure FileRef where
  extension : Option String := none
  name : Option String := none
  size : Option Nat := none
  deriving Repr, DecidableEq

/-- `_displayData`: `{ file, title }`. -/
structure DisplayData where
  file : FileRef := {}
  title : Option String := none
  deriving Repr, DecidableEq

/-- Block data (`file-selectorToolData`): the object stored in `_data`,
returned by the `data` getter and by `save()`. -/
structure BlockData where
  file : Option FileRef := none
  title : Option String := none
  deriving Repr, DecidableEq

/-- `body.file` in the upload response: `{ name, size, title }` are read off
it; each may be `undefined`. -/
structure UploadFile where
  name : Option String := none
  size : Option Nat := none
  title : Option String := none
  deriving Repr, DecidableEq

/-- The upload response envelope.  `success` is the truthiness of the
`success` field (`1`/`0` in the source's JSDoc); `file = none` models an
absent/nullish `file` field (a present object is always truthy in JS). -/
structure UploadResponse where
  success : Bool
  file : Option UploadFile := none
  deriving Repr, DecidableEq

/-- JS `list.split('.')` on a list of characters: splits at every `'.'`,
keeping empty segments, and never returns the empty list
(`''.split('.') = ['']`). -/
def jsSplitDot : List Char → List (List Char)
  | [] => [[]]
  | c :: cs =>
    if c = '.' then [] :: jsSplitDot cs
    else (c :: (jsSplitDot cs).headD []) :: (jsSplitDot cs).tail

/-- `name ? name.split('.').pop().toLowerCase() : ''` from `onUpload`:
the extension derived from the uploaded file's name.  `Char.toLower` embeds
`toLowerCase` (they agree on ASCII, the alphabet of file extensions). -/
def deriveExtension (name : Option String) : String :=
  match name with
  | none => ""
  | some s =>
    if s = "" then ""
    else String.mk (((jsSplitDot s.toList).getLastD []).map Char.toLower)

/-- The substring of `l` after the last `'.'`: the trailing run of
characters that contains no `'.'`.  When `l` has no `'.'` at all this is
`l` itself. -/
def afterLastDot (l : List Char) : List Char :=
  (l.reverse.takeWhile (fun c => c ≠ '.')).reverse

/-- The spec's description of the derived extension (spec §8, claim C2, as
amended): the substring after the last `'.'`, lower-cased; empty for an
absent or empty name. -/
def specExtension (name : Option String) : String :=
  match name with
  | none => ""
  | some s => String.mk ((afterLastDot s.toList).map Char.toLower)

/-- Result of the JS property read `this.EXTENSIONS[extension]`.  The
`EXTENSIONS` getter returns a plain object literal, so a bracket lookup
also resolves properties inherited from `Object.prototype`.  Among the
all-lowercase names a lower-cased extension can take, exactly
`"constructor"` (the `Object` constructor function) and `"__proto__"`
(the prototype object) resolve to truthy non-string values; every other
inherited property name contains an upper-case letter and is unreachable
after `toLowerCase()`.  `color` is an own entry of the table, `inherited`
such a truthy non-string inherited value, `absent` is `undefined`
(falsy). -/
inductive LookupResult where
  | color : String → LookupResult
  | inherited : LookupResult
  | absent : LookupResult
  deriving Repr, DecidableEq

/-- The lookup `this.EXTENSIONS[extension]` against the `EXTENSIONS`
getter's color table (lowercase extension → display color), prototype
chain included. -/
def EXTENSIONS (e : String) : LookupResult :=
  match e with
  | "doc" => LookupResult.color "#3e74da"
  | "docx" => LookupResult.color "#3e74da"
  | "odt" => LookupResult.color "#3e74da"
  | "pdf" => LookupResult.color "#d47373"
  | "rtf" => LookupResult.color "#656ecd"
  | "tex" => LookupResult.color "#5a5a5b"
  | "txt" => LookupResult.color "#5a5a5b"
  | "pptx" => LookupResult.color "#e07066"
  | "ppt" => LookupResult.color "#e07066"
  | "mp3" => LookupResult.color "#eab456"
  | "mp4" => LookupResult.color "#f676a6"
  | "xls" => LookupResult.color "#3f9e64"
  | "xlsx" => LookupResult.color "#3f9e64"
  | "html" => LookupResult.color "#2988f0"
  | "htm" => LookupResult.color "#2988f0"
  | "png" => LookupResult.color "#f676a6"
  | "jpg" => LookupResult.color "#f67676"
  | "jpeg" => LookupResult.color "#f67676"
  | "gif" => LookupResult.color "#f6af76"
  | "zip" => LookupResult.color "#4f566f"
  | "rar" => LookupResult.color "#4f566f"
  | "exe" => LookupResult.color "#e26f6f"
  | "svg" => LookupResult.color "#bf5252"
  | "key" => LookupResult.color "#e07066"
  | "sketch" => LookupResult.color "#df821c"
  | "ai" => LookupResult.color "#df821c"
  | "psd" => LookupResult.color "#388ae5"
  | "dmg" => LookupResult.color "#e26f6f"
  | "json" => LookupResult.color "#2988f0"
  | "csv" => LookupResult.color "#3f9e64"
  | "constructor" => LookupResult.inherited
  | "__proto__" => LookupResult.inherited
  | _ => LookupResult.absent

/-- The file-icon element built by `appendFileIcon`: `customIcon` records
which SVG is used as `innerHTML` (`CustomFileIcon` vs the generic
`FileIcon`), `color` is `style.color`, `longer` the presence of the
`'longer'` class, `dataExtension` the `data-extension` attribute.  A freshly
made element has no color, no `'longer'` class and no attribute. -/
structure IconNode where
  customIcon : Bool
  color : Option String := none
  longer : Bool := false
  dataExtension : Option String := none
  deriving Repr, DecidableEq

/-- The icon `appendFileIcon` builds for a given extension string
(`this._displayData.file.extension || ''` is resolved by the caller).
Any truthy lookup result takes the custom-icon branch; for an inherited
non-string value the `style.color = extensionColor` assignment stringifies
to an invalid CSS color and is silently dropped by the CSSOM, so the icon
keeps no inline color, while the length rule and `data-extension` apply as
usual. -/
def mkIcon (extension : String) : IconNode :=
  match EXTENSIONS extension with
  | LookupResult.absent => { customIcon := false }
  | LookupResult.color extensionColor =>
      { customIcon := true
        color := some extensionColor
        longer := extension.length > 3
        dataExtension := some extension }
  | LookupResult.inherited =>
      { customIcon := true
        color := none
        longer := extension.length > 3
        dataExtension := some extension }

/-- The size formatting in `showFileData`, as the pair
(value in tenths of a unit, unit tag).  `Math.log10(size) >= 6` is embedded
as `10^6 ≤ size`: `Math.log10` is strictly monotone on positive reals and
exact at `10^6`, so the two conditions agree for every positive integer
(theorem `size_format_spec` proves this against `Real.logb`).
`formattedSize.toFixed(1)` displays `t/10` where `t` is the nearest integer
to `10 * size / 2^k` (ties round up, as in `toFixed`); here
`t = (10 * size + 2^(k-1)) / 2^k` in exact natural arithmetic, which
`size_format_spec` identifies with `round ((size : ℚ) * 10 / 2^k)`. -/
def sizeDisplay (size : Nat) : Nat × String :=
  if 10 ^ 6 ≤ size then ((size * 10 + 2 ^ 19) / 2 ^ 20, "MiB")
  else ((size * 10 + 2 ^ 9) / 2 ^ 10, "KiB")

/-- A child of the wrapper element: the upload button, the file icon, or
the `file-info` div.  `info` records the title div's text (when the title
is truthy) and the size div's text and `data-size` attribute (when the size
is truthy). -/
inductive Child where
  | button : Child
  | icon : IconNode → Child
  | info : Option String → Option (Nat × String) → Child
  deriving Repr, DecidableEq

/-- The wrapper element: CSS classes (`classList`, an ordered set),
children, and registered click listeners (`addEventListener` has set
semantics for a fixed handler, and `enableFileUpload` is bound once in the
constructor). -/
structure Wrapper where
  classes : List String
  children : List Child
  listeners : List String
  deriving Repr, DecidableEq

/-- `classList.add(c)`: appends `c` unless already present. -/
def classListAdd (l : List String) (c : String) : List String :=
  if c ∈ l then l else l ++ [c]

/-- `classList.remove(c)`: removes every occurrence of `c`. -/
def classListRemove (l : List String) (c : String) : List String :=
  l.filter (fun x => x ≠ c)

/-- The `this.nodes` bag: `wrapper`, `button`, `title`; each starts `null`.
Only the presence of `button`/`title` matters to the embedded code, so they
are `Option Unit` (a node stays non-null after being detached from the
DOM). -/
structure Nodes where
  wrapper : Option Wrapper := none
  button : Option Unit := none
  title : Option Unit := none
  deriving Repr, DecidableEq

/-- Resolved configuration (after the constructor's `||`-defaulting). -/
structure Config where
  endpoint : String
  types : String
  buttonText : String
  errorMessage : String
  deriving Repr, DecidableEq

/-- Raw constructor configuration: each field may be absent. -/
structure RawConfig where
  endpoint : Option String := none
  types : Option String := none
  buttonText : Option String := none
  errorMessage : Option String := none
  deriving Repr, DecidableEq

/-- `x || default` for an optional string: an absent or empty (falsy)
value is replaced by the default. -/
def orDefault (x : Option String) (d : String) : String :=
  match x with
  | none => d
  | some s => if s = "" then d else s

/-- The constructor's config resolution. -/
def resolveConfig (c : RawConfig) : Config :=
  { endpoint := orDefault c.endpoint ""
    types := orDefault c.types "*"
    buttonText := orDefault c.buttonText "Select file to upload"
    errorMessage := orDefault c.errorMessage "File upload failed" }

/-- Host-provided style tokens (`api.styles.block/button/loader`). -/
structure ApiStyles where
  block : String := "cdx-block"
  button : String := "cdx-button"
  loader : String := "cdx-loader"
  deriving Repr, DecidableEq

/-- The full state of one `FileSelectorTool` instance: `_displayData`,
`_data`, the node bag, the resolved config and api style tokens, plus the
observable host interactions — notifications shown through `api.notifier`
(message, style) and the number of `block.dispatchChange()` calls. -/
structure ToolState where
  _displayData : DisplayData
  _data : BlockData
  nodes : Nodes
  config : Config
  api : ApiStyles
  notifications : List (String × String)
  dispatchCount : Nat
  deriving Repr, DecidableEq

/-- The constructor.  `data` is `none` when the host passes
`null`/`undefined` (`this._data = data || {}`); `_displayData` is reset to
`{file: {}, title: ''}` regardless of `data`. -/
def init (data : Option BlockData) (config : RawConfig) (api : ApiStyles) : ToolState :=
  { _displayData := { file := {}, title := some "" }
    _data := data.getD {}
    nodes := {}
    config := resolveConfig config
    api := api
    notifications := []
    dispatchCount := 0 }

/-- The `data` getter. -/
def getData (s : ToolState) : BlockData := s._data

/-- `save()` returns `this.data`. -/
def save (s : ToolState) : BlockData := getData s

/-- The `data` setter: `this._data = data || {}; this.block.dispatchChange()`.
The argument is an object or nullish (`none`); an object is always truthy. -/
def setData (s : ToolState) (data : Option BlockData) : ToolState :=
  { s with _data := data.getD {}, dispatchCount := s.dispatchCount + 1 }

/-- `pluginHasData()`:
`title !== '' || Object.values(file).some(item => item !== undefined)`. -/
def pluginHasData (d : DisplayData) : Bool :=
  decide (d.title ≠ some "") ||
    d.file.extension.isSome || d.file.name.isSome || d.file.size.isSome

/-- JS truthiness of the optional `title` string. -/
def hasTitleB (t : Option String) : Bool :=
  match t with
  | none => false
  | some s => s ≠ ""

/-- The size div's content: present iff `size` is truthy (nonzero). -/
def sizeEntry (sz : Option Nat) : Option (Nat × String) :=
  match sz with
  | none => none
  | some n => if n = 0 then none else some (sizeDisplay n)

/-- `showFileData()`: requires a non-null wrapper (`none` = TypeError).
Clears `innerHTML`, adds the with-file class, appends the icon and the
`file-info` div (title and size when truthy), registers the card's click
listener, and records `this.nodes.title` when a title div is created. -/
def showFileData (s : ToolState) : Option ToolState :=
  match s.nodes.wrapper with
  | none => none
  | some w =>
      some { s with nodes :=
        { wrapper := some
            { classes := classListAdd w.classes "cdx-file-selector--with-file"
              children :=
                [Child.icon (mkIcon (s._displayData.file.extension.getD ""))
                , Child.info
                    (if hasTitleB s._displayData.title then s._displayData.title else none)
                    (sizeEntry s._displayData.file.size)]
              listeners := classListAdd w.listeners "enableFileUpload" }
          button := s.nodes.button
          title := if hasTitleB s._displayData.title then some () else s.nodes.title } }

/-- `classList.remove(wrapperLoading, loader)` on a wrapper. -/
def clearLoading (api : ApiStyles) (w : Wrapper) : Wrapper :=
  { w with classes :=
      classListRemove (classListRemove w.classes "cdx-file-selector--loading") api.loader }

/-- `removeLoader()`: removes the loading classes from the wrapper.  The
source does this inside a fixed-delay `setTimeout`; the delay itself is not
modelled, only the resulting class removal (a null wrapper, whose delayed
callback would throw outside `onUpload`, is left unchanged). -/
def removeLoader (s : ToolState) : ToolState :=
  { s with nodes := { s.nodes with wrapper := Option.map (clearLoading s.api) s.nodes.wrapper } }

/-- `uploadingFailed(errorMessage)`: notifier toast with style `'error'`,
then `removeLoader()`. -/
def uploadingFailed (s : ToolState) (errorMessage : String) : ToolState :=
  removeLoader { s with notifications := s.notifications ++ [(errorMessage, "error")] }

/-- Detach any button child from a wrapper. -/
def detachButton (w : Wrapper) : Wrapper :=
  { w with children := w.children.filter (fun ch => ch ≠ Child.button) }

/-- `this.nodes.button.remove()`: detaches the button from its parent; the
`nodes.button` reference itself is kept. -/
def buttonRemove (s : ToolState) : ToolState :=
  { s with nodes := { s.nodes with wrapper := Option.map detachButton s.nodes.wrapper } }

/-- The display data installed by a successful upload. -/
def uploadedDisplay (f : UploadFile) : DisplayData :=
  { file :=
      { extension := some (deriveExtension f.name)
        name := f.name
        size := f.size }
    title := f.title }

/-- `onUpload(response)`.  On `success && file`: replace `_displayData`,
remove the button node (`none` = TypeError on a null `nodes.button`), call
`showFileData()` (TypeError on a null wrapper) and `removeLoader()`.
Otherwise `uploadingFailed(this.config.errorMessage)`.  Note that `_data`
is never written. -/
def onUpload (s : ToolState) (r : UploadResponse) : Option ToolState :=
  if r.success = true then
    match r.file with
    | some f =>
        match s.nodes.button with
        | none => none
        | some _ =>
            (showFileData (buttonRemove { s with _displayData := uploadedDisplay f })).map
              removeLoader
    | none => some (uploadingFailed s s.config.errorMessage)
  else some (uploadingFailed s s.config.errorMessage)

/-- `prepareUploadButton()`: creates the button node and appends it to the
wrapper (`none` = TypeError on a null wrapper). -/
def prepareUploadButton (s : ToolState) : Option ToolState :=
  match s.nodes.wrapper with
  | none => none
  | some w =>
      some { s with nodes :=
        { wrapper := some { w with children := w.children ++ [Child.button] }
          button := some ()
          title := s.nodes.title } }

/-- `render()`: installs a fresh wrapper div (class `cdx-file-selector`,
no children, no listeners), then builds the file card if
`pluginHasData()`, else the upload button.  The returned holder div (class
`api.styles.block`) only wraps the wrapper and is not tracked. -/
def render (s : ToolState) : Option ToolState :=
  if pluginHasData s._displayData then
    showFileData { s with nodes := { s.nodes with
      wrapper := some { classes := ["cdx-file-selector"], children := [], listeners := [] } } }
  else
    prepareUploadButton { s with nodes := { s.nodes with
      wrapper := some { classes := ["cdx-file-selector"], children := [], listeners := [] } } }

/-- `classList.add(wrapperLoading, loader)` on a wrapper. -/
def addLoading (api : ApiStyles) (w : Wrapper) : Wrapper :=
  { w with classes :=
      classListAdd (classListAdd w.classes "cdx-file-selector--loading") api.loader }

/-- The `onPreview` callback passed to the uploader by
`enableFileUpload()`: adds the loading classes to the wrapper
(`none` = TypeError on a null wrapper). -/
def onPreview (s : ToolState) : Option ToolState :=
  match s.nodes.wrapper with
  | none => none
  | some w =>
      some { s with nodes := { s.nodes with wrapper := some (addLoading s.api w) } }

/-- The external events that drive one block instance: a host `render()`
call, an upload completion (`onUpload`), the uploader's pre-upload
callback, and a host write through the `data` setter. -/
inductive Event where
  | render : Event
  | upload : UploadResponse → Event
  | preview : Event
  | setData : Option BlockData → Event
  deriving Repr, DecidableEq

/-- One event step. -/
def step (s : ToolState) : Event → Option ToolState
  | Event.render => render s
  | Event.upload r => onUpload s r
  | Event.preview => onPreview s
  | Event.setData d => some (setData s d)

/-- Run a list of events; `none` as soon as one step throws. -/
def run (s : ToolState) : List Event → Option ToolState
  | [] => some s
  | e :: es => (step s e).bind fun s' => run s' es

/-- Whether an event is a successful upload (`success && file`). -/
def isSuccessEvent : Event → Bool
  | Event.upload r => r.success && r.file.isSome
  | _ => false

/-- Whether some successful upload occurs in the trace. -/
def hasSuccess (evs : List Event) : Bool := evs.any isSuccessEvent

/-- The wrapper shows the file card (icon first, as `showFileData` builds
it). -/
def Wrapper.isFileCard (w : Wrapper) : Bool :=
  match w.children with
  | Child.icon _ :: _ => true
  | _ => false

/-- The wrapper shows the upload-button view. -/
def Wrapper.isButtonView (w : Wrapper) : Bool :=
  match w.children with
  | [Child.button] => true
  | _ => false

/-- An empty raw config: every option takes its default. -/
def cfg0 : RawConfig := {}

/-- Default api style tokens. -/
def api0 : ApiStyles := {}

/-- The spec's example successful upload response:
`{success: 1, file: {name: "a.pdf", size: 2048, title: "A"}}`. -/
def respA : UploadResponse :=
  { success := true
    file := some { name := some "a.pdf", size := some 2048, title := some "A" } }

/-- The spec's example failing response: `{success: 0}`. -/
def respFail : UploadResponse := { success := false }

/-- A freshly constructed block (no data) after its first `render()`. -/
def renderedState : ToolState :=
  (run (init none cfg0 api0) [Event.render]).getD (init none cfg0 api0)

/-- Example block data for exercising the `data` setter. -/
def bd1 : BlockData := { title := some "T" }

/-- The empty block after `render()` and the example successful upload. -/
def uploadedState : ToolState :=
  (run (init none cfg0 api0) [Event.render, Event.upload respA]).getD (init none cfg0 api0)

/-- The state produced by the success branch of `onUpload` when the button
node is non-null and the wrapper is `w`, written out in full. -/
def uploadResult (s : ToolState) (f : UploadFile) (w : Wrapper) : ToolState :=
  { s with
    _displayData := uploadedDisplay f
    nodes :=
      { wrapper := some
          { classes := classListRemove (classListRemove
              (classListAdd w.classes "cdx-file-selector--with-file")
              "cdx-file-selector--loading") s.api.loader
            children :=
              [Child.icon (mkIcon ((uploadedDisplay f).file.extension.getD ""))
              , Child.info
                  (if hasTitleB (uploadedDisplay f).title then (uploadedDisplay f).title else none)
                  (sizeEntry (uploadedDisplay f).file.size)]
            listeners := classListAdd w.listeners "enableFileUpload" }
        button := s.nodes.button
        title := if hasTitleB (uploadedDisplay f).title then some () else s.nodes.title } }

lemma jsSplitDot_ne_nil (l : List Char) : jsSplitDot l ≠ [] := by
  cases l with
  | nil => simp [jsSplitDot]
  | cons c cs => simp only [jsSplitDot]; split <;> simp

lemma jsSplitDot_of_not_mem (l : List Char) (h : '.' ∉ l) : jsSplitDot l = [l] := by
  induction l with
  | nil => rfl
  | cons c cs ih =>
    simp only [List.mem_cons, not_or] at h
    rw [jsSplitDot, if_neg (fun hc => h.1 hc.symm), ih h.2]
    simp

lemma jsSplitDot_length_of_mem (l : List Char) (h : '.' ∈ l) :
    2 ≤ (jsSplitDot l).length := by
  induction l with
  | nil => simp at h
  | cons c cs ih =>
    simp only [jsSplitDot]
    by_cases hc : c = '.'
    · have := jsSplitDot_ne_nil cs
      simp only [if_pos hc, List.length_cons]
      have : 1 ≤ (jsSplitDot cs).length := List.length_pos.mpr this
      omega
    · rcases List.mem_cons.mp h with h1 | h2
      · exact absurd h1.symm hc
      · have h2' := ih h2
        simp only [if_neg hc, List.length_cons, List.length_tail]
        omega

lemma takeWhile_of_forall {p : Char → Bool} {l : List Char}
    (h : ∀ x ∈ l, p x) : l.takeWhile p = l := by
  induction l with
  | nil => rfl
  | cons c cs ih =>
    rw [List.takeWhile_cons, if_pos (h c (List.mem_cons_self c cs)),
      ih fun x hx => h x (List.mem_cons_of_mem c hx)]

lemma takeWhile_append_of_mem {p : Char → Bool} {l : List Char} (l' : List Char)
    (h : ∃ x ∈ l, ¬ p x) : (l ++ l').takeWhile p = l.takeWhile p := by
  induction l with
  | nil => simp at h
  | cons c cs ih =>
    by_cases hc : p c
    · rcases h with ⟨x, hx, hpx⟩
      rcases List.mem_cons.mp hx with rfl | hx'
      · exact absurd hc hpx
      · simp only [List.cons_append, List.takeWhile_cons, if_pos hc]
        rw [ih ⟨x, hx', hpx⟩]
    · simp only [List.cons_append, List.takeWhile_cons, if_neg hc]

lemma takeWhile_append_of_forall {p : Char → Bool} {l : List Char} (l' : List Char)
    (h : ∀ x ∈ l, p x) : (l ++ l').takeWhile p = l ++ l'.takeWhile p := by
  induction l with
  | nil => simp
  | cons c cs ih =>
    simp only [List.cons_append, List.takeWhile_cons,
      if_pos (h c (List.mem_cons_self c cs))]
    rw [ih fun x hx => h x (List.mem_cons_of_mem c hx)]

lemma afterLastDot_cons (c : Char) (cs : List Char) :
    afterLastDot (c :: cs) =
      if '.' ∈ cs then afterLastDot cs
      else if c = '.' then cs else c :: cs := by
  unfold afterLastDot
  rw [List.reverse_cons]
  by_cases hd : '.' ∈ cs
  · rw [if_pos hd,
      takeWhile_append_of_mem _ ⟨'.', List.mem_reverse.mpr hd, by simp⟩]
  · rw [if_neg hd]
    have hall : ∀ x ∈ cs.reverse, (fun a => (a ≠ '.' : Bool)) x = true := by
      intro x hx
      have hx' : x ∈ cs := List.mem_reverse.mp hx
      simp only [ne_eq, decide_eq_true_eq]
      rintro rfl; exact hd hx'
    rw [takeWhile_append_of_forall _ hall]
    by_cases hc : c = '.'
    · subst hc
      simp [List.takeWhile_cons]
    · simp [List.takeWhile_cons, hc]

lemma afterLastDot_of_not_mem {l : List Char} (h : '.' ∉ l) :
    afterLastDot l = l := by
  unfold afterLastDot
  rw [takeWhile_of_forall, List.reverse_reverse]
  intro x hx
  have hx' : x ∈ l := List.mem_reverse.mp hx
  simp only [ne_eq, decide_eq_true_eq]
  rintro rfl; exact h hx'

/-- The last element of the JS split equals the trailing dot-free run. -/
lemma getLastD_jsSplitDot (l : List Char) :
    (jsSplitDot l).getLastD [] = afterLastDot l := by
  induction l with
  | nil => rfl
  | cons c cs ih =>
    rw [afterLastDot_cons]
    simp only [jsSplitDot]
    by_cases hc : c = '.'
    · rw [if_pos hc, if_pos hc]
      by_cases hd : '.' ∈ cs
      · rw [if_pos hd, ← ih]
        cases hs : jsSplitDot cs with
        | nil => exact absurd hs (jsSplitDot_ne_nil cs)
        | cons p ps =>
          rw [List.getLastD_eq_getLast? [] ([] :: p :: ps),
            List.getLastD_eq_getLast? [] (p :: ps), List.getLast?_cons_cons]
      · rw [if_neg hd, jsSplitDot_of_not_mem cs hd]
        rfl
    · rw [if_neg hc]
      by_cases hd : '.' ∈ cs
      · rw [if_pos hd, ← ih]
        have hlen := jsSplitDot_length_of_mem cs hd
        cases hs : jsSplitDot cs with
        | nil => exact absurd hs (jsSplitDot_ne_nil cs)
        | cons p ps =>
          rw [hs] at hlen
          cases ps with
          | nil => simp at hlen
          | cons q qs =>
            rw [List.getLastD_eq_getLast? [] ((c :: (p :: q :: qs).headD []) :: (p :: q :: qs).tail),
              List.getLastD_eq_getLast? [] (p :: q :: qs)]
            simp only [List.headD_cons, List.tail_cons]
            rw [List.getLast?_cons_cons, List.getLast?_cons_cons]
      · rw [if_neg hd, if_neg hc, jsSplitDot_of_not_mem cs hd]
        rfl

/-- The failure branch of `onUpload` is taken exactly when `success` is
falsy or `file` is absent, and produces `uploadingFailed(errorMessage)`. -/
lemma onUpload_not_success (s : ToolState) (r : UploadResponse)
    (h : r.success = false ∨ r.file = none) :
    onUpload s r = some (uploadingFailed s s.config.errorMessage) := by
  unfold onUpload
  cases hs : r.success with
  | false => rw [if_neg (by simp)]
  | true =>
    rcases h with h | h
    · rw [hs] at h; cases h
    · rw [if_pos rfl, h]

lemma run_append (s : ToolState) (l₁ l₂ : List Event) :
    run s (l₁ ++ l₂) = (run s l₁).bind fun s' => run s' l₂ := by
  induction l₁ generalizing s with
  | nil => simp [run]
  | cons e es ih =>
    simp only [List.cons_append, run]
    cases h : step s e with
    | none => simp
    | some s1 => simp [ih]

lemma showFileData_displayData {s s' : ToolState} (h : showFileData s = some s') :
    s'._displayData = s._displayData := by
  unfold showFileData at h
  cases hw : s.nodes.wrapper <;> rw [hw] at h
  · simp at h
  · injection h with h
    subst h
    rfl

lemma prepareUploadButton_displayData {s s' : ToolState}
    (h : prepareUploadButton s = some s') : s'._displayData = s._displayData := by
  unfold prepareUploadButton at h
  cases hw : s.nodes.wrapper <;> rw [hw] at h
  · simp at h
  · injection h with h
    subst h
    rfl

lemma render_displayData {s s' : ToolState} (h : render s = some s') :
    s'._displayData = s._displayData := by
  unfold render at h
  split at h
  · exact (showFileData_displayData h).trans rfl
  · exact (prepareUploadButton_displayData h).trans rfl

/-- The success branch of `onUpload`, as an equation: with truthy `success`,
a present `file` and a non-null button node, the result is
`removeLoader (showFileData (... button removed, display replaced ...))`. -/
lemma onUpload_success_eq (s : ToolState) (r : UploadResponse) (f : UploadFile) (b : Unit)
    (hs : r.success = true) (hf : r.file = some f) (hb : s.nodes.button = some b) :
    onUpload s r = Option.map removeLoader
      (showFileData (buttonRemove { s with _displayData := uploadedDisplay f })) := by
  unfold onUpload
  rw [if_pos hs, hf, hb]

lemma onPreview_displayData {s s' : ToolState} (h : onPreview s = some s') :
    s'._displayData = s._displayData := by
  unfold onPreview at h
  cases hw : s.nodes.wrapper <;> rw [hw] at h
  · simp at h
  · injection h with h
    subst h
    rfl

lemma pluginHasData_uploadedDisplay (f : UploadFile) :
    pluginHasData (uploadedDisplay f) = true := by
  simp [pluginHasData, uploadedDisplay]

/-- Each event step tracks `pluginHasData` exactly: it becomes (and stays)
true on a successful upload and is otherwise unchanged. -/
lemma pluginHasData_step {s s' : ToolState} {e : Event} (h : step s e = some s') :
    pluginHasData s'._displayData = (pluginHasData s._displayData || isSuccessEvent e) := by
  cases e with
  | render =>
    rw [render_displayData h]
    simp [isSuccessEvent]
  | preview =>
    rw [onPreview_displayData h]
    simp [isSuccessEvent]
  | setData d =>
    injection h with h
    subst h
    simp [isSuccessEvent, setData]
  | upload r =>
    have h' : onUpload s r = some s' := h
    by_cases hsf : r.success = true ∧ ∃ f, r.file = some f
    · obtain ⟨hs, f, hf⟩ := hsf
      cases hb : s.nodes.button with
      | none =>
        unfold onUpload at h'
        rw [if_pos hs, hf, hb] at h'
        exact Option.noConfusion h'
      | some b =>
        rw [onUpload_success_eq s r f b hs hf hb] at h'
        cases hsh : showFileData (buttonRemove { s with _displayData := uploadedDisplay f }) with
        | none => rw [hsh] at h'; simp at h'
        | some t =>
          rw [hsh] at h'
          injection h' with h'
          subst h'
          have ht : t._displayData = uploadedDisplay f :=
            (showFileData_displayData hsh).trans rfl
          rw [show (removeLoader t)._displayData = t._displayData from rfl, ht,
            pluginHasData_uploadedDisplay]
          simp [isSuccessEvent, hs, hf]
    · have hfail : r.success = false ∨ r.file = none := by
        by_cases hs : r.success = true
        · right
          cases hff : r.file with
          | none => rfl
          | some f => exact absurd ⟨hs, f, hff⟩ hsf
        · left
          cases hss : r.success
          · rfl
          · exact absurd hss hs
      rw [onUpload_not_success s r hfail] at h'
      injection h' with h'
      subst h'
      have hnot : isSuccessEvent (Event.upload r) = false := by
        rcases hfail with hfal | hfal <;> simp [isSuccessEvent, hfal]
      rw [hnot]
      simp [uploadingFailed, removeLoader]

/-- Along any successful trace, `pluginHasData` of the display state equals
its initial value or-ed with the presence of a successful upload. -/
lemma pluginHasData_run {s : ToolState} (evs : List Event) {s' : ToolState}
    (h : run s evs = some s') :
    pluginHasData s'._displayData = (pluginHasData s._displayData || hasSuccess evs) := by
  induction evs generalizing s with
  | nil =>
    injection h with h
    subst h
    simp [hasSuccess]
  | cons e es ih =>
    simp only [run] at h
    cases hstep : step s e with
    | none => rw [hstep] at h; simp at h
    | some s1 =>
      rw [hstep] at h
      simp only [Option.some_bind] at h
      rw [ih h, pluginHasData_step hstep]
      simp [hasSuccess, Bool.or_assoc]

lemma showFileData_nodes {s s' : ToolState} (h : showFileData s = some s') :
    s'.nodes.wrapper.isSome = true ∧ s'.nodes.button = s.nodes.button := by
  unfold showFileData at h
  cases hw : s.nodes.wrapper <;> rw [hw] at h
  · simp at h
  · injection h with h
    subst h
    exact ⟨rfl, rfl⟩

lemma showFileData_isSome {s : ToolState} (hw : s.nodes.wrapper.isSome = true) :
    (showFileData s).isSome = true := by
  unfold showFileData
  cases hww : s.nodes.wrapper
  · rw [hww] at hw; simp at hw
  · simp

/-- No event step ever resets the wrapper or button node to `null`. -/
lemma nodes_step {s s' : ToolState} {e : Event} (h : step s e = some s')
    (hw : s.nodes.wrapper.isSome = true) (hb : s.nodes.button.isSome = true) :
    s'.nodes.wrapper.isSome = true ∧ s'.nodes.button.isSome = true := by
  cases e with
  | render =>
    have h' : render s = some s' := h
    unfold render at h'
    split at h'
    · obtain ⟨h1, h2⟩ := showFileData_nodes h'
      exact ⟨h1, by rw [h2]; exact hb⟩
    · unfold prepareUploadButton at h'
      simp only at h'
      injection h' with h'
      subst h'
      exact ⟨rfl, rfl⟩
  | preview =>
    have h' : onPreview s = some s' := h
    unfold onPreview at h'
    cases hww : s.nodes.wrapper <;> rw [hww] at h'
    · simp at h'
    · injection h' with h'
      subst h'
      exact ⟨rfl, hb⟩
  | setData d =>
    injection h with h
    subst h
    exact ⟨hw, hb⟩
  | upload r =>
    have h' : onUpload s r = some s' := h
    by_cases hsf : r.success = true ∧ ∃ f, r.file = some f
    · obtain ⟨hs, f, hf⟩ := hsf
      cases hbb : s.nodes.button with
      | none => rw [hbb] at hb; exact Bool.noConfusion hb
      | some b =>
        rw [onUpload_success_eq s r f b hs hf hbb] at h'
        cases hsh : showFileData (buttonRemove { s with _displayData := uploadedDisplay f }) with
        | none =>
          have hss : (showFileData (buttonRemove { s with _displayData := uploadedDisplay f })).isSome = true := by
            apply showFileData_isSome
            simp only [buttonRemove]
            cases hww : s.nodes.wrapper
            · rw [hww] at hw; exact Bool.noConfusion hw
            · simp
          rw [hsh] at hss
          exact Bool.noConfusion hss
        | some t =>
          rw [hsh] at h'
          injection h' with h'
          subst h'
          obtain ⟨h1, h2⟩ := showFileData_nodes hsh
          constructor
          · simp only [removeLoader]
            cases hww : t.nodes.wrapper
            · rw [hww] at h1; exact Bool.noConfusion h1
            · simp
          · simp only [removeLoader]
            rw [h2]
            simp only [buttonRemove]
            rw [hbb]
            rfl
    · have hfail : r.success = false ∨ r.file = none := by
        by_cases hs : r.success = true
        · right
          cases hff : r.file with
          | none => rfl
          | some f => exact absurd ⟨hs, f, hff⟩ hsf
        · left
          cases hss : r.success
          · rfl
          · exact absurd hss hs
      rw [onUpload_not_success s r hfail] at h'
      injection h' with h'
      subst h'
      constructor
      · simp only [uploadingFailed, removeLoader]
        cases hww : s.nodes.wrapper
        · rw [hww] at hw; exact Bool.noConfusion hw
        · simp
      · exact hb

lemma nodes_run {s : ToolState} (evs : List Event) {s' : ToolState}
    (h : run s evs = some s')
    (hw : s.nodes.wrapper.isSome = true) (hb : s.nodes.button.isSome = true) :
    s'.nodes.wrapper.isSome = true ∧ s'.nodes.button.isSome = true := by
  induction evs generalizing s with
  | nil =>
    injection h with h
    subst h
    exact ⟨hw, hb⟩
  | cons e es ih =>
    simp only [run] at h
    cases hstep : step s e with
    | none => rw [hstep] at h; simp at h
    | some s1 =>
      rw [hstep] at h
      simp only [Option.some_bind] at h
      obtain ⟨h1, h2⟩ := nodes_step hstep hw hb
      exact ih h h1 h2

lemma mem_classListAdd_self (l : List String) (c : String) : c ∈ classListAdd l c := by
  unfold classListAdd
  split
  · assumption
  · simp

lemma classListAdd_idem (l : List String) (c : String) :
    classListAdd (classListAdd l c) c = classListAdd l c := by
  unfold classListAdd
  by_cases h : c ∈ l
  · simp [h]
  · simp [h]

lemma filter_idem (p : String → Bool) (l : List String) :
    (l.filter p).filter p = l.filter p := by
  induction l with
  | nil => rfl
  | cons a l ih =>
    by_cases h : p a <;> simp [List.filter_cons, h, ih]

lemma classListAdd_of_mem {l : List String} {c : String} (h : c ∈ l) :
    classListAdd l c = l := by
  unfold classListAdd
  rw [if_pos h]

lemma classListAdd_of_not_mem {l : List String} {c : String} (h : c ∉ l) :
    classListAdd l c = l ++ [c] := by
  unfold classListAdd
  rw [if_neg h]

/-- Adding a class and then filtering is idempotent: repeating the
add-then-filter pass leaves the class list unchanged. -/
lemma classListAdd_filter_idem (p : String → Bool) (a : String) (l : List String) :
    (classListAdd ((classListAdd l a).filter p) a).filter p
      = (classListAdd l a).filter p := by
  by_cases h : a ∈ (classListAdd l a).filter p
  · rw [classListAdd_of_mem h]
    exact filter_idem p _
  · rw [classListAdd_of_not_mem h]
    have hpa : p a = false := by
      by_contra hpa
      exact h (List.mem_filter.mpr
        ⟨mem_classListAdd_self l a, Bool.not_eq_false (p a) ▸ hpa⟩)
    rw [List.filter_append, filter_idem]
    simp [List.filter_cons, hpa]

/-- The `add with-file class, later strip the two loading classes` pass of
a successful upload is idempotent on the class list. -/
lemma addRemoveRemove_idem (a b c : String) (l : List String) :
    classListRemove (classListRemove
        (classListAdd (classListRemove (classListRemove (classListAdd l a) b) c) a) b) c
      = classListRemove (classListRemove (classListAdd l a) b) c := by
  have hcomp : ∀ m : List String, classListRemove (classListRemove m b) c
      = m.filter (fun x => decide (x ≠ b) && decide (x ≠ c)) := by
    intro m
    unfold classListRemove
    induction m with
    | nil => rfl
    | cons x xs ih =>
      by_cases hb : (x ≠ b : Bool) <;> by_cases hc : (x ≠ c : Bool) <;>
        simp_all [List.filter_cons]
  rw [hcomp, hcomp]
  exact classListAdd_filter_idem _ a l

/-- With truthy `success`, a file, a non-null button and wrapper `w`, the
success branch computes exactly `uploadResult`. -/
lemma onUpload_success_result (s : ToolState) (r : UploadResponse) (f : UploadFile)
    (b : Unit) (w : Wrapper) (hs : r.success = true) (hf : r.file = some f)
    (hb : s.nodes.button = some b) (hw : s.nodes.wrapper = some w) :
    onUpload s r = some (uploadResult s f w) := by
  rw [onUpload_success_eq s r f b hs hf hb]
  unfold buttonRemove showFileData
  simp only [hw, Option.map_some']
  rfl

/-- With non-null wrapper and button nodes, `onUpload` cannot throw. -/
lemma onUpload_isSome {s : ToolState} (r : UploadResponse)
    (hw : s.nodes.wrapper.isSome = true) (hb : s.nodes.button.isSome = true) :
    (onUpload s r).isSome = true := by
  by_cases hsf : r.success = true ∧ ∃ f, r.file = some f
  · obtain ⟨hs, f, hf⟩ := hsf
    cases hbb : s.nodes.button with
    | none => rw [hbb] at hb; exact Bool.noConfusion hb
    | some b =>
      rw [onUpload_success_eq s r f b hs hf hbb]
      have hss : (showFileData (buttonRemove { s with _displayData := uploadedDisplay f })).isSome = true := by
        apply showFileData_isSome
        simp only [buttonRemove]
        cases hww : s.nodes.wrapper
        · rw [hww] at hw; exact Bool.noConfusion hw
        · simp
      cases hsh : showFileData (buttonRemove { s with _displayData := uploadedDisplay f }) with
      | none => rw [hsh] at hss; exact Bool.noConfusion hss
      | some t => simp [hsh]
  · have hfail : r.success = false ∨ r.file = none := by
      by_cases hs : r.success = true
      · right
        cases hff : r.file with
        | none => rfl
        | some f => exact absurd ⟨hs, f, hff⟩ hsf
      · left
        cases hss : r.success
        · rfl
        · exact absurd hss hs
    rw [onUpload_not_success s r hfail]
    simp

/-- `toFixed(1)` of `n / 2^10` in exact arithmetic: nearest-tenths
rounding of the KiB value agrees with the natural-division formula. -/
lemma round_kib (n : ℕ) :
    round ((n : ℚ) * 10 / 2 ^ 10) = (((n * 10 + 2 ^ 9) / 2 ^ 10 : ℕ) : ℤ) := by
  rw [round_eq]
  have h : (n : ℚ) * 10 / 2 ^ 10 + 1 / 2 =
      ((n * 10 + 2 ^ 9 : ℕ) : ℚ) / ((2 ^ 10 : ℕ) : ℚ) := by
    push_cast
    ring
  rw [h, Rat.floor_natCast_div_natCast, Int.natCast_div]

/-- `toFixed(1)` of `n / 2^20` in exact arithmetic. -/
lemma round_mib (n : ℕ) :
    round ((n : ℚ) * 10 / 2 ^ 20) = (((n * 10 + 2 ^ 19) / 2 ^ 20 : ℕ) : ℤ) := by
  rw [round_eq]
  have h : (n : ℚ) * 10 / 2 ^ 20 + 1 / 2 =
      ((n * 10 + 2 ^ 19 : ℕ) : ℚ) / ((2 ^ 20 : ℕ) : ℚ) := by
    push_cast
    ring
  rw [h, Rat.floor_natCast_div_natCast, Int.natCast_div]

/-- C4: for every positive rendered size, the source's float test
`Math.log10(size) >= 6` coincides with `10^6 ≤ size`; above the threshold
the unit tag is `"MiB"` and the shown value is `size / 2^20` rounded to
one decimal (in tenths), below it the tag is `"KiB"` and the value is
`size / 2^10` rounded to one decimal. -/
theorem size_format_spec (size : Nat) (h : 0 < size) :
    (6 ≤ Real.logb 10 (size : ℝ) ↔ 10 ^ 6 ≤ size)
  ∧ (10 ^ 6 ≤ size →
      (sizeDisplay size).2 = "MiB"
        ∧ ((sizeDisplay size).1 : ℤ) = round ((size : ℚ) * 10 / 2 ^ 20))
  ∧ (size < 10 ^ 6 →
      (sizeDisplay size).2 = "KiB"
        ∧ ((sizeDisplay size).1 : ℤ) = round ((size : ℚ) * 10 / 2 ^ 10)) := by
  refine ⟨?_, ?_, ?_⟩
  · have hpos : (0 : ℝ) < (size : ℝ) := by exact_mod_cast h
    rw [Real.le_logb_iff_rpow_le (by norm_num) hpos]
    have h10 : ((10 : ℝ) ^ (6 : ℝ)) = ((10 ^ 6 : ℕ) : ℝ) := by
      rw [show (6 : ℝ) = ((6 : ℕ) : ℝ) by norm_num, Real.rpow_natCast]
      norm_num
    rw [h10, Nat.cast_le]
  · intro h6
    unfold sizeDisplay
    rw [if_pos h6]
    exact ⟨rfl, (round_mib size).symm⟩
  · intro h6
    unfold sizeDisplay
    rw [if_neg (by omega)]
    exact ⟨rfl, (round_kib size).symm⟩

/-- Witness for C4 at the spec's examples: 2048 bytes show as 2.0 KiB,
1048576 bytes as 1.0 MiB. -/
theorem size_format_spec_witness :
    ((sizeDisplay 2048).2 = "KiB"
      ∧ ((sizeDisplay 2048).1 : ℤ) = round ((2048 : ℚ) * 10 / 2 ^ 10)
      ∧ (sizeDisplay 2048).1 = 20)
  ∧ ((sizeDisplay 1048576).2 = "MiB"
      ∧ ((sizeDisplay 1048576).1 : ℤ) = round ((1048576 : ℚ) * 10 / 2 ^ 20)
      ∧ (sizeDisplay 1048576).1 = 10) :=
  ⟨⟨((size_format_spec 2048 (by decide)).2.2 (by decide)).1,
    ((size_format_spec 2048 (by decide)).2.2 (by decide)).2, by decide⟩,
   ⟨((size_format_spec 1048576 (by decide)).2.1 (by decide)).1,
    ((size_format_spec 1048576 (by decide)).2.1 (by decide)).2, by decide⟩⟩

/-- C2 (amended): for every `name`, the derived extension is the substring
after the last `'.'` of the name, lower-cased (for a dot-free name this is
the whole name lower-cased, and it is empty exactly when the name is
absent, empty, or ends in `'.'`). -/
theorem deriveExtension_matches_afterLastDot (name : Option String) :
    deriveExtension name = specExtension name := by
  cases name with
  | none => rfl
  | some s =>
    by_cases h : s = ""
    · subst h; rfl
    · simp only [deriveExtension, specExtension, if_neg h, getLastD_jsSplitDot]

/-- C2 counterexample: for `name = "readme"` (no `'.'`) the code derives
`"readme"`, not the empty string the claim requires. -/
theorem deriveExtension_readme_counterexample :
    deriveExtension (some "readme") = "readme" ∧ deriveExtension (some "readme") ≠ "" :=
  ⟨by decide, by decide⟩

/-- C1 (code evaluation at the spec's own example): running
`onUpload({success:1, file:{name:"a.pdf", size:2048, title:"A"}})` on a
freshly rendered empty block succeeds and installs the new display state,
but the underlying block data — the value of the `data` getter and of
`save()` — is left untouched (still the empty object) and no change is
dispatched to the host: `onUpload` never writes `_data`. -/
theorem onUpload_leaves_blockData_unchanged :
    ∃ s', onUpload renderedState respA = some s'
      ∧ s'._displayData =
          { file := { extension := some "pdf", name := some "a.pdf", size := some 2048 }
            title := some "A" }
      ∧ getData s' = getData renderedState
      ∧ save s' = ({} : BlockData)
      ∧ s'.dispatchCount = 0 :=
  ⟨(onUpload renderedState respA).getD renderedState,
    by decide, by decide, by decide, by decide, by decide⟩

/-- C3: for every response with falsy `success` or missing `file`,
`onUpload` shows the configured error message through the notifier with
style `'error'`, removes only the loading classes from the wrapper (the
children — the previous view — are untouched), and leaves `_displayData`,
the block data and the button node exactly as they were. -/
theorem onUpload_failure_preserves_state (s : ToolState) (r : UploadResponse)
    (h : r.success = false ∨ r.file = none) :
    ∃ s', onUpload s r = some s'
      ∧ s'.notifications = s.notifications ++ [(s.config.errorMessage, "error")]
      ∧ s'._displayData = s._displayData
      ∧ getData s' = getData s
      ∧ s'.nodes.button = s.nodes.button
      ∧ Option.map Wrapper.children s'.nodes.wrapper = Option.map Wrapper.children s.nodes.wrapper
      ∧ s'.nodes.wrapper = Option.map (clearLoading s.api) s.nodes.wrapper := by
  refine ⟨uploadingFailed s s.config.errorMessage, onUpload_not_success s r h,
    rfl, rfl, rfl, rfl, ?_, rfl⟩
  cases hw : s.nodes.wrapper <;>
    simp [uploadingFailed, removeLoader, clearLoading, hw]

/-- Witness for C3 at the spec's example `{success: 0}` on a rendered
block. -/
theorem onUpload_failure_preserves_state_witness :
    ∃ s', onUpload renderedState respFail = some s'
      ∧ s'.notifications =
          renderedState.notifications ++ [(renderedState.config.errorMessage, "error")]
      ∧ s'._displayData = renderedState._displayData
      ∧ getData s' = getData renderedState
      ∧ s'.nodes.button = renderedState.nodes.button
      ∧ Option.map Wrapper.children s'.nodes.wrapper =
          Option.map Wrapper.children renderedState.nodes.wrapper
      ∧ s'.nodes.wrapper =
          Option.map (clearLoading renderedState.api) renderedState.nodes.wrapper :=
  onUpload_failure_preserves_state renderedState respFail (Or.inl rfl)

/-- C6: `pluginHasData()` is true iff the display title differs from the
empty string or some field of the display file object is defined, and it
is false for a freshly constructed block whatever data and config the
constructor received. -/
theorem pluginHasData_spec :
    (∀ d : DisplayData, pluginHasData d = true ↔
        (d.title ≠ some "" ∨ d.file.extension.isSome = true
          ∨ d.file.name.isSome = true ∨ d.file.size.isSome = true))
  ∧ (∀ (data : Option BlockData) (config : RawConfig) (api : ApiStyles),
        pluginHasData (init data config api)._displayData = false) := by
  constructor
  · intro d
    unfold pluginHasData
    simp [Bool.or_eq_true, decide_eq_true_eq, or_assoc]
  · intro data config api
    rfl

/-- C7 counterexample: `"constructor"` is not a key of the color table,
but the bracket lookup resolves the inherited `Object.prototype` property,
a truthy value, so the program renders the custom icon variant with the
`'longer'` class (11 > 3 characters) and a `data-extension` attribute —
not the generic icon with no length-adjustment class that the claim
requires for every extension outside the table. -/
theorem appendFileIcon_constructor_counterexample :
    (∀ c, EXTENSIONS "constructor" ≠ LookupResult.color c)
  ∧ mkIcon "constructor" ≠
      { customIcon := false, color := none, longer := false, dataExtension := none }
  ∧ mkIcon "constructor" =
      { customIcon := true, color := none, longer := true
        dataExtension := some "constructor" } :=
  ⟨fun c h => LookupResult.noConfusion h, by decide, by decide⟩

/-- C7 (amended): an extension on which the lookup is `undefined` —
neither a key of the color table nor one of the lowercase inherited
`Object.prototype` names (`"constructor"`, `"__proto__"`) — yields the
generic icon with no color and no `'longer'` class; a table key of length
greater than 3 yields the tinted custom icon with the `'longer'` class;
an inherited name yields the custom icon under the same length rule, with
a `data-extension` attribute but no effective color (the non-string value
is an invalid CSS color, so the `style.color` assignment is a no-op). -/
theorem appendFileIcon_spec (extension : String) :
    (EXTENSIONS extension = LookupResult.absent →
        mkIcon extension =
          { customIcon := false, color := none, longer := false, dataExtension := none })
  ∧ (∀ c, EXTENSIONS extension = LookupResult.color c → 3 < extension.length →
        mkIcon extension =
          { customIcon := true, color := some c, longer := true
            dataExtension := some extension })
  ∧ (EXTENSIONS extension = LookupResult.inherited →
        mkIcon extension =
          { customIcon := true, color := none
            longer := extension.length > 3
            dataExtension := some extension }) := by
  refine ⟨?_, ?_, ?_⟩
  · intro h
    unfold mkIcon
    rw [h]
  · intro c hc hlen
    unfold mkIcon
    rw [hc]
    simp [hlen]
  · intro h
    unfold mkIcon
    rw [h]

/-- Witness for C7: `"xyz"` is absent from table and prototype chain;
`"sketch"` is a table key with length 6 > 3; `"__proto__"` resolves
through the prototype chain. -/
theorem appendFileIcon_spec_witness :
    (EXTENSIONS "xyz" = LookupResult.absent
      ∧ mkIcon "xyz" =
          { customIcon := false, color := none, longer := false, dataExtension := none })
  ∧ (EXTENSIONS "sketch" = LookupResult.color "#df821c" ∧ 3 < "sketch".length
      ∧ mkIcon "sketch" =
          { customIcon := true, color := some "#df821c", longer := true
            dataExtension := some "sketch" })
  ∧ (EXTENSIONS "__proto__" = LookupResult.inherited
      ∧ mkIcon "__proto__" =
          { customIcon := true, color := none, longer := true
            dataExtension := some "__proto__" }) :=
  ⟨⟨rfl, (appendFileIcon_spec "xyz").1 rfl⟩,
   ⟨rfl, by decide, (appendFileIcon_spec "sketch").2.1 "#df821c" rfl (by decide)⟩,
   ⟨rfl, (appendFileIcon_spec "__proto__").2.2 rfl⟩⟩

/-- C9: the `data` setter stores the assigned object itself when one is
given, replaces a nullish value with a fresh empty object (so the getter
never yields null/undefined afterwards), and always calls
`block.dispatchChange()`, even for empty or unchanged values. -/
theorem data_setter_spec (s : ToolState) (v : Option BlockData) :
    (∀ d, v = some d → getData (setData s v) = d)
  ∧ (v = none → getData (setData s v) = ({} : BlockData))
  ∧ (setData s v).dispatchCount = s.dispatchCount + 1 := by
  refine ⟨?_, ?_, rfl⟩
  · rintro d rfl
    rfl
  · rintro rfl
    rfl

/-- C5: in every reachable state of a block instance, the display state is
non-empty (in the sense of `pluginHasData`) iff some successful upload
occurred in the instance's event history; it is empty at construction
whatever data the constructor received; and `render()` from the reached
state builds the file-card view exactly when the display state is
non-empty, the upload-button view otherwise. -/
theorem displayState_nonempty_iff_uploaded
    (data : Option BlockData) (config : RawConfig) (api : ApiStyles)
    (evs : List Event) (s : ToolState)
    (h : run (init data config api) evs = some s) :
    (pluginHasData s._displayData = true ↔ hasSuccess evs = true)
  ∧ pluginHasData (init data config api)._displayData = false
  ∧ (∀ s', render s = some s' → ∃ w, s'.nodes.wrapper = some w
        ∧ (w.isFileCard = true ↔ pluginHasData s._displayData = true)
        ∧ (w.isButtonView = true ↔ pluginHasData s._displayData = false)) := by
  have hrun := pluginHasData_run evs h
  rw [show pluginHasData (init data config api)._displayData = false from rfl] at hrun
  simp only [Bool.false_or] at hrun
  refine ⟨by rw [hrun], rfl, ?_⟩
  intro s' hr
  unfold render at hr
  cases hp : pluginHasData s._displayData with
  | true =>
    rw [if_pos hp] at hr
    unfold showFileData at hr
    simp only at hr
    injection hr with hr
    subst hr
    refine ⟨_, rfl, ?_, ?_⟩ <;> simp [Wrapper.isFileCard, Wrapper.isButtonView, hp]
  | false =>
    rw [if_neg (by simp [hp])] at hr
    unfold prepareUploadButton at hr
    simp only at hr
    injection hr with hr
    subst hr
    refine ⟨_, rfl, ?_, ?_⟩ <;> simp [Wrapper.isFileCard, Wrapper.isButtonView, hp]

/-- Witness for C5 on the concrete trace `render(); onUpload(success)`. -/
theorem displayState_nonempty_iff_uploaded_witness :
    (pluginHasData uploadedState._displayData = true
        ↔ hasSuccess [Event.render, Event.upload respA] = true)
  ∧ pluginHasData (init none cfg0 api0)._displayData = false
  ∧ (∀ s', render uploadedState = some s' → ∃ w, s'.nodes.wrapper = some w
        ∧ (w.isFileCard = true ↔ pluginHasData uploadedState._displayData = true)
        ∧ (w.isButtonView = true ↔ pluginHasData uploadedState._displayData = false)) :=
  displayState_nonempty_iff_uploaded none cfg0 api0
    [Event.render, Event.upload respA] uploadedState (by decide)

/-- C10: if `render()` happens before any `onUpload` in the instance's
history, then at every later point the wrapper and button nodes are
non-null and `onUpload` (with any response) cannot hit a null
dereference: `render` always creates the button first because the display
state starts empty. -/
theorem onUpload_null_safe
    (data : Option BlockData) (config : RawConfig) (api : ApiStyles)
    (pre mid : List Event) (s : ToolState) (r : UploadResponse)
    (hpre : ∀ r', Event.upload r' ∉ pre)
    (h : run (init data config api) (pre ++ Event.render :: mid) = some s) :
    s.nodes.wrapper.isSome = true ∧ s.nodes.button.isSome = true
      ∧ onUpload s r ≠ none := by
  rw [run_append] at h
  cases hpre' : run (init data config api) pre with
  | none => rw [hpre'] at h; exact Option.noConfusion h
  | some sPre =>
    rw [hpre'] at h
    simp only [Option.some_bind] at h
    have hno : hasSuccess pre = false := by
      unfold hasSuccess
      rw [List.any_eq_false]
      intro e he
      cases e with
      | upload r' => exact absurd he (hpre r')
      | render => simp [isSuccessEvent]
      | preview => simp [isSuccessEvent]
      | setData d => simp [isSuccessEvent]
    have hp : pluginHasData sPre._displayData = false := by
      have hh := pluginHasData_run pre hpre'
      rw [show pluginHasData (init data config api)._displayData = false from rfl, hno] at hh
      simpa using hh
    simp only [run] at h
    have hrender : step sPre Event.render =
        some { sPre with nodes :=
          { wrapper := some
              { classes := ["cdx-file-selector"], children := [] ++ [Child.button]
                listeners := [] }
            button := some ()
            title := sPre.nodes.title } } := by
      show render sPre = _
      unfold render
      rw [if_neg (by simp [hp])]
      rfl
    rw [hrender] at h
    simp only [Option.some_bind] at h
    obtain ⟨h1, h2⟩ := nodes_run mid h rfl rfl
    refine ⟨h1, h2, ?_⟩
    have hsome := onUpload_isSome r h1 h2
    intro hnone
    rw [hnone] at hsome
    exact Bool.noConfusion hsome

/-- Witness for C10: the empty prefix, a bare `render()`, and the example
response. -/
theorem onUpload_null_safe_witness :
    renderedState.nodes.wrapper.isSome = true
  ∧ renderedState.nodes.button.isSome = true
  ∧ onUpload renderedState respA ≠ none :=
  onUpload_null_safe none cfg0 api0 [] [] renderedState respA
    (fun r' h => by cases h) (by decide)

/-- C8: repeating `onUpload` with the identical successful payload is
idempotent — the second call succeeds and reproduces the first call's
state exactly (in particular the wrapper's DOM children, CSS classes and
listeners), and by induction so does every further identical call. -/
theorem onUpload_idempotent (s s1 : ToolState) (r : UploadResponse)
    (hs : r.success = true) (hf : r.file.isSome = true)
    (h1 : onUpload s r = some s1) :
    onUpload s1 r = some s1 := by
  obtain ⟨f, hf'⟩ := Option.isSome_iff_exists.mp hf
  cases hb : s.nodes.button with
  | none =>
    unfold onUpload at h1
    rw [if_pos hs, hf', hb] at h1
    exact Option.noConfusion h1
  | some b =>
    cases hw : s.nodes.wrapper with
    | none =>
      rw [onUpload_success_eq s r f b hs hf' hb] at h1
      have hnone : showFileData (buttonRemove { s with _displayData := uploadedDisplay f }) = none := by
        unfold showFileData buttonRemove
        simp [hw]
      rw [hnone] at h1
      exact Option.noConfusion h1
    | some w =>
      rw [onUpload_success_result s r f b w hs hf' hb hw] at h1
      injection h1 with h1
      subst h1
      have hb2 : (uploadResult s f w).nodes.button = some b := hb
      rw [onUpload_success_result (uploadResult s f w) r f b _ hs hf' hb2 rfl]
      have hcl := addRemoveRemove_idem "cdx-file-selector--with-file"
        "cdx-file-selector--loading" s.api.loader w.classes
      have hls := classListAdd_idem w.listeners "enableFileUpload"
      congr 1
      unfold uploadResult
      rw [hcl, hls]
      by_cases ht : hasTitleB (uploadedDisplay f).title = true <;> simp [ht]

/-- Witness for C8: the example payload applied twice to a freshly
rendered empty block. -/
theorem onUpload_idempotent_witness :
    onUpload uploadedState respA = some uploadedState :=
  onUpload_idempotent renderedState uploadedState respA (by decide) (by decide) (by decide)

/-- Witness for C9 at a concrete state and both kinds of assigned value. -/
theorem data_setter_spec_witness :
    getData (setData (init none cfg0 api0) (some bd1)) = bd1
  ∧ getData (setData (init none cfg0 api0) none) = ({} : BlockData)
  ∧ (setData (init none cfg0 api0) (some bd1)).dispatchCount =
      (init none cfg0 api0).dispatchCount + 1 :=
  ⟨(data_setter_spec (init none cfg0 api0) (some bd1)).1 bd1 rfl,
   (data_setter_spec (init none cfg0 api0) none).2.1 rfl,
   (data_setter_spec (init none cfg0 api0) (some bd1)).2.2⟩

end FileSelector
